import Mathlib

/-!
Shallow embedding of the filesystem data-storage backend
(`filesystem.go` of retryspool-storage-data-filesystem).

Go strings are modelled as lists of bytes (`List Nat`): Go's `len`,
slicing (`id[:2]`), `strings.Contains` and `strings.ContainsAny` are all
byte-based, so a byte-list model is the faithful one.

The filesystem is a finite structure: an association list from paths to
file contents plus a list of existing directories.  A path is a list of
components (each a byte string); `filepath.Join` of a clean base path
with separator-free components appends components, and `filepath.Dir`
drops the last component, so component lists model the path algebra the
code uses.  The OS calls the code issues (`os.MkdirAll`, `os.Create`,
`os.Open`, `os.Remove`, `os.ReadDir`) are modelled as pure
`Except`-returning functions on this structure; the only error kind the
Go code inspects is `os.IsNotExist`, so the OS error type distinguishes
`notExist` from everything else.

The backend state is the `Backend` struct (base path and `closed` flag)
together with the filesystem.  The `sync.RWMutex` is not part of the
state: in the single-threaded semantics modelled here, each operation's
lock/unlock pair has no observable effect.  A context is modelled by its
already-cancelled bit (`select` on `ctx.Done()` with a `default` branch
observes exactly that).
-/

namespace FsStore

/-- A path component: the bytes of one file or directory name. -/
abbrev Comp := List Nat

/-- A filesystem path as a list of components (`filepath.Join`/`Dir` algebra). -/
abbrev FsPath := List Comp

/-- The bytes of the fixed `".data"` suffix appended to every blob filename. -/
def dataSuffix : List Nat := [46, 100, 97, 116, 97]

/-- The bytes of the `"misc"` catch-all shard used for identifiers shorter than 2. -/
def miscBytes : List Nat := [109, 105, 115, 99]

/-- `strings.Contains(id, "..")`: two consecutive dot bytes (46) anywhere in `id`. -/
def hasDotDot : List Nat → Bool
  | a :: b :: rest => (a == 46 && b == 46) || hasDotDot (b :: rest)
  | _ => false

/-- `strings.ContainsAny(id, "/\\")`: byte 47 is a forward slash, 92 a backslash. -/
def isPathSep (c : Nat) : Bool := c == 47 || c == 92

/-- `validateMessageID` from filesystem.go: the four checks in source order,
returning the error message on failure and `none` on success. -/
def validateMessageID (id : List Nat) : Option String :=
  if id = [] then some "messageID cannot be empty"
  else if hasDotDot id then some "messageID cannot contain .."
  else if id.any isPathSep then some "messageID cannot contain path separators"
  else if 255 < id.length then some "messageID too long (max 255 characters)"
  else none

/-- `getDataPath` from filesystem.go, as a component path: base path plus the
two-character shard (or `"misc"` for short ids) plus `<id>.data`. -/
def getDataPath (base : FsPath) (id : List Nat) : FsPath :=
  if 2 ≤ id.length then base ++ [id.take 2, id ++ dataSuffix]
  else base ++ [miscBytes, id ++ dataSuffix]

/-- `getDataPath` as a byte string: the result of `filepath.Join` on a clean
base path and the separator-free components, i.e. the components joined by
the slash byte 47. -/
def getDataPathStr (baseStr : List Nat) (id : List Nat) : List Nat :=
  if 2 ≤ id.length then baseStr ++ 47 :: (id.take 2 ++ 47 :: (id ++ dataSuffix))
  else baseStr ++ 47 :: (miscBytes ++ 47 :: (id ++ dataSuffix))

/-- OS error kinds: the Go code only ever branches on `os.IsNotExist`, so
`notExist` versus everything else is the whole taxonomy it observes. -/
inductive OsErr where
  | notExist
  | other (msg : String)
deriving DecidableEq

/-- The filesystem: file paths with their contents, and existing directories. -/
structure FS where
  files : List (FsPath × List Nat)
  dirs : List FsPath
deriving DecidableEq

/-- First binding of a path in an association list of files. -/
def lookupFile : List (FsPath × List Nat) → FsPath → Option (List Nat)
  | [], _ => none
  | e :: rest, p => if e.1 = p then some e.2 else lookupFile rest p

/-- Contents of the file at `p`, if a file is there. -/
def FS.file (fs : FS) (p : FsPath) : Option (List Nat) := lookupFile fs.files p

/-- Whether a directory exists at `p`. -/
def FS.isDir (fs : FS) (p : FsPath) : Bool := decide (p ∈ fs.dirs)

/-- Create or truncate-and-overwrite the file at `p` with contents `b`. -/
def FS.setFile (fs : FS) (p : FsPath) (b : List Nat) : FS :=
  ⟨(p, b) :: fs.files.filter (fun e => decide (e.1 ≠ p)), fs.dirs⟩

/-- Remove the file at `p`. -/
def FS.eraseFile (fs : FS) (p : FsPath) : FS :=
  ⟨fs.files.filter (fun e => decide (e.1 ≠ p)), fs.dirs⟩

/-- Remove the directory at `p`. -/
def FS.eraseDir (fs : FS) (p : FsPath) : FS :=
  ⟨fs.files, fs.dirs.filter (fun d => decide (d ≠ p))⟩

/-- The directory entries of `dir`: every file or directory path whose parent
(`filepath.Dir`, i.e. `dropLast`) is `dir`. -/
def childrenOf (fs : FS) (dir : FsPath) : List FsPath :=
  (fs.files.map Prod.fst ++ fs.dirs).filter
    (fun q => decide (q ≠ dir) && decide (q.dropLast = dir))

/-- `os.ReadDir`: fails if no directory is at `dir`, else lists its entries. -/
def readDir (fs : FS) (dir : FsPath) : Except OsErr (List FsPath) :=
  if (fs.file dir).isSome then .error (.other "not a directory")
  else if fs.isDir dir then .ok (childrenOf fs dir)
  else .error .notExist

/-- `os.Open` collapsed with the subsequent read: the contents of the file at
`p`, `notExist` if nothing is there.  A directory at `p` is reported as a
failing open (Go's open of a directory succeeds but every read of the handle
fails; for content retrieval the collapsed form is a failure either way, and
it is not a `notExist`). -/
def osOpen (fs : FS) (p : FsPath) : Except OsErr (List Nat) :=
  match fs.file p with
  | some b => .ok b
  | none => if fs.isDir p then .error (.other "is a directory") else .error .notExist

/-- `os.Create`: truncate/create the file at `p`.  Fails if `p` is a
directory (EISDIR) or the parent directory does not exist (ENOENT). -/
def osCreate (fs : FS) (p : FsPath) : Except OsErr FS :=
  if fs.isDir p then .error (.other "is a directory")
  else if fs.isDir p.dropLast then .ok (fs.setFile p [])
  else .error .notExist

/-- `os.Remove`: removes the file at `p`, or the directory at `p` if it is
empty and not the root; `notExist` when nothing is at `p`. -/
def osRemove (fs : FS) (p : FsPath) : Except OsErr FS :=
  match fs.file p with
  | some _ => .ok (fs.eraseFile p)
  | none =>
    if fs.isDir p then
      if p = [] then .error (.other "cannot remove the root")
      else if childrenOf fs p = [] then .ok (fs.eraseDir p)
      else .error (.other "directory not empty")
    else .error .notExist

/-- All the directories `os.MkdirAll p` guarantees to exist: every
initial segment of `p`, the empty (root) path and `p` itself included. -/
def prefixesOf (p : FsPath) : List FsPath :=
  (List.range (p.length + 1)).map (fun i => p.take i)

/-- `os.MkdirAll`: creates `p` and any missing ancestors; fails if a file
occupies `p` or any ancestor (ENOTDIR / EEXIST-non-directory). -/
def mkdirAll (fs : FS) (p : FsPath) : Except OsErr FS :=
  if (prefixesOf p).all (fun q => (fs.file q).isNone) then
    .ok ⟨fs.files, prefixesOf p ++ fs.dirs⟩
  else .error (.other "not a directory")

/-- The recursion of `cleanupEmptyDirs`, with an explicit step counter as the
termination device (each recursive step passes to `filepath.Dir`, which
strictly shortens the component path, so a counter starting above the path
length is never exhausted).  One step mirrors the Go body exactly: stop at
the base path, stop silently if `ReadDir` fails or finds entries, otherwise
`Remove` the directory and recurse on its parent if the removal succeeded.
At the root path the removal fails (the root is never removable), so the
walk stops with the filesystem unchanged, which the `[]` case returns
directly. -/
def cleanupAux (base : FsPath) : Nat → FS → FsPath → FS
  | 0, fs, _ => fs
  | _ + 1, fs, [] => fs
  | n + 1, fs, c :: cs =>
    if c :: cs = base then fs
    else
      match readDir fs (c :: cs) with
      | .error _ => fs
      | .ok entries =>
        if entries = [] then
          match osRemove fs (c :: cs) with
          | .ok fs2 => cleanupAux base n fs2 (c :: cs).dropLast
          | .error _ => fs
        else fs

/-- `cleanupEmptyDirs` from filesystem.go: walk upward from `dir`, removing
each directory that is empty, stopping at the base path, on any `ReadDir`
failure, on a non-empty directory, or on a failed removal — all silently. -/
def cleanupEmptyDirs (base : FsPath) (fs : FS) (dir : FsPath) : FS :=
  cleanupAux base (dir.length + 1) fs dir

/-- The `Backend` struct (minus the mutex, see the file comment) together
with the filesystem it operates on. -/
structure BState where
  basePath : FsPath
  closed : Bool
  fs : FS
deriving DecidableEq

/-- A context, by the only thing the code observes of it: whether its done
channel is already closed when the operation polls it. -/
structure Ctx where
  done : Bool
deriving DecidableEq

/-- The error kinds the backend produces, one per distinct `fmt.Errorf`
construction site in the source (messages elided where the kind carries
them). -/
inductive BErr where
  | validation (msg : String)
  | closedBackend
  | cancelled
  | notFound (id : List Nat)
  | ioError (msg : String)
deriving DecidableEq

deriving instance DecidableEq for Except

/-- `NewBackend`: `os.MkdirAll(basePath, 0o755)`, then the open backend. -/
def newBackend (fs : FS) (base : FsPath) : Except String BState :=
  match mkdirAll fs base with
  | .error _ => .error "failed to create base directory"
  | .ok fs1 => .ok ⟨base, false, fs1⟩

/-- `StoreData`: validate, reject if closed, poll the context, create the
shard directory, create/truncate the blob file, copy the source bytes,
return the copied length.  The modelled source reader is a pure byte list,
so the `io.Copy` failure branch of the source cannot fire here. -/
def storeData (ctx : Ctx) (st : BState) (id : List Nat) (data : List Nat) :
    Except BErr (Nat × BState) :=
  match validateMessageID id with
  | some m => .error (.validation m)
  | none =>
    if st.closed then .error .closedBackend
    else if ctx.done then .error .cancelled
    else
      let dataPath := getDataPath st.basePath id
      match mkdirAll st.fs dataPath.dropLast with
      | .error _ => .error (.ioError "failed to create data directory")
      | .ok fs1 =>
        match osCreate fs1 dataPath with
        | .error _ => .error (.ioError "failed to create data file")
        | .ok fs2 => .ok (data.length, { st with fs := fs2.setFile dataPath data })

/-- `GetDataReader`, with the returned reader modelled by the bytes it
delivers: validate, reject if closed, poll the context, open the blob file,
mapping a `notExist` open failure to the not-found error and any other open
failure to a wrapped I/O error. -/
def getDataReader (ctx : Ctx) (st : BState) (id : List Nat) :
    Except BErr (List Nat) :=
  match validateMessageID id with
  | some m => .error (.validation m)
  | none =>
    if st.closed then .error .closedBackend
    else if ctx.done then .error .cancelled
    else
      match osOpen st.fs (getDataPath st.basePath id) with
      | .ok b => .ok b
      | .error .notExist => .error (.notFound id)
      | .error (.other _) => .error (.ioError "failed to open data file")

/-- `GetDataWriter`, with the returned writer modelled by the path it writes
to: validate, reject if closed, poll the context, create the shard
directory, create/truncate the blob file, and hand the handle back. -/
def getDataWriter (ctx : Ctx) (st : BState) (id : List Nat) :
    Except BErr (FsPath × BState) :=
  match validateMessageID id with
  | some m => .error (.validation m)
  | none =>
    if st.closed then .error .closedBackend
    else if ctx.done then .error .cancelled
    else
      let dataPath := getDataPath st.basePath id
      match mkdirAll st.fs dataPath.dropLast with
      | .error _ => .error (.ioError "failed to create data directory")
      | .ok fs1 =>
        match osCreate fs1 dataPath with
        | .error _ => .error (.ioError "failed to create data file")
        | .ok fs2 => .ok (dataPath, { st with fs := fs2 })

/-- `DeleteData`: validate, reject if closed, poll the context, remove the
blob file treating `notExist` as success, then best-effort cleanup of empty
ancestor directories. -/
def deleteData (ctx : Ctx) (st : BState) (id : List Nat) : Except BErr BState :=
  match validateMessageID id with
  | some m => .error (.validation m)
  | none =>
    if st.closed then .error .closedBackend
    else if ctx.done then .error .cancelled
    else
      let dataPath := getDataPath st.basePath id
      match osRemove st.fs dataPath with
      | .ok fs1 =>
          .ok { st with fs := cleanupEmptyDirs st.basePath fs1 dataPath.dropLast }
      | .error .notExist =>
          .ok { st with fs := cleanupEmptyDirs st.basePath st.fs dataPath.dropLast }
      | .error (.other _) => .error (.ioError "failed to delete data file")

/-- `Close`: set the closed flag; always returns success. -/
def closeBackend (st : BState) : Except BErr BState :=
  .ok { st with closed := true }

/-! ### String-level path resolution, for the traversal-safety claim.

`splitOnSlash` splits a byte string at slash bytes, and `resolveComps`
normalises a component sequence the way the kernel resolves a path:
empty and `"."` components are skipped and a `".."` component pops the
previous one (clamped at the root, as for an absolute path). -/

/-- Split a byte string at every slash byte (47); splitting the empty
string yields one empty component. -/
def splitOnSlash : List Nat → List (List Nat)
  | [] => [[]]
  | c :: cs =>
    if c = 47 then [] :: splitOnSlash cs
    else
      match splitOnSlash cs with
      | [] => [[c]]
      | d :: ds => (c :: d) :: ds

/-- One step of path resolution: skip empty and `"."`, pop on `".."`,
push any other component. -/
def resolveStep (acc : List (List Nat)) (c : List Nat) : List (List Nat) :=
  if c = [] ∨ c = [46] then acc
  else if c = [46, 46] then acc.dropLast
  else acc ++ [c]

/-- Resolve a component sequence to the directory chain it denotes. -/
def resolveComps (cs : List (List Nat)) : List (List Nat) :=
  cs.foldl resolveStep []

/-- The shard component `getDataPath` selects for an identifier. -/
def shardOf (id : List Nat) : Comp :=
  if 2 ≤ id.length then id.take 2 else miscBytes

/-! ### Helper lemmas about the filesystem model -/

theorem lookupFile_filter_ne {l : List (FsPath × List Nat)} {p q : FsPath}
    (h : q ≠ p) :
    lookupFile (l.filter (fun e => decide (e.1 ≠ p))) q = lookupFile l q := by
  induction l with
  | nil => rfl
  | cons e rest ih =>
    simp only [decide_not] at ih ⊢
    by_cases he : e.1 = p
    · have hne : e.1 ≠ q := fun hq => h (hq ▸ he)
      have hpq : p ≠ q := fun hp => h hp.symm
      simp [List.filter_cons, he, lookupFile, hne, hpq, ih]
    · simp [List.filter_cons, he, lookupFile, ih]

theorem lookupFile_filter_self {l : List (FsPath × List Nat)} {p : FsPath} :
    lookupFile (l.filter (fun e => decide (e.1 ≠ p))) p = none := by
  induction l with
  | nil => rfl
  | cons e rest ih =>
    simp only [decide_not] at ih ⊢
    by_cases he : e.1 = p
    · simp [List.filter_cons, he, ih]
    · simp [List.filter_cons, he, lookupFile, ih]

theorem FS.file_setFile_same (fs : FS) (p : FsPath) (b : List Nat) :
    (fs.setFile p b).file p = some b := by
  simp [FS.setFile, FS.file, lookupFile]

theorem FS.file_setFile_ne (fs : FS) {p q : FsPath} (b : List Nat) (h : q ≠ p) :
    (fs.setFile p b).file q = fs.file q := by
  simp only [FS.setFile, FS.file, lookupFile]
  rw [if_neg (fun hq => h hq.symm)]
  exact lookupFile_filter_ne h

theorem FS.file_eraseFile_same (fs : FS) (p : FsPath) :
    (fs.eraseFile p).file p = none := by
  simp only [FS.eraseFile, FS.file]
  exact lookupFile_filter_self

theorem FS.isDir_setFile (fs : FS) (p q : FsPath) (b : List Nat) :
    (fs.setFile p b).isDir q = fs.isDir q := rfl

theorem FS.isDir_eraseFile (fs : FS) (p q : FsPath) :
    (fs.eraseFile p).isDir q = fs.isDir q := rfl

theorem FS.isDir_true_iff (fs : FS) (p : FsPath) :
    fs.isDir p = true ↔ p ∈ fs.dirs := by
  simp [FS.isDir]

theorem FS.isDir_false_iff (fs : FS) (p : FsPath) :
    fs.isDir p = false ↔ p ∉ fs.dirs := by
  simp [FS.isDir]

theorem FS.mem_eraseDir {fs : FS} {p q : FsPath} :
    q ∈ (fs.eraseDir p).dirs ↔ q ∈ fs.dirs ∧ q ≠ p := by
  simp [FS.eraseDir, List.mem_filter]

/-! ### Helper lemmas about path derivation -/

theorem getDataPath_eq (base : FsPath) (id : List Nat) :
    getDataPath base id = base ++ [shardOf id, id ++ dataSuffix] := by
  by_cases h : 2 ≤ id.length <;> simp [getDataPath, shardOf, h]

theorem getDataPath_dropLast (base : FsPath) (id : List Nat) :
    (getDataPath base id).dropLast = base ++ [shardOf id] := by
  rw [getDataPath_eq,
    show base ++ [shardOf id, id ++ dataSuffix] =
      (base ++ [shardOf id]) ++ [id ++ dataSuffix] by simp]
  exact List.dropLast_concat ..

theorem getDataPath_length (base : FsPath) (id : List Nat) :
    (getDataPath base id).length = base.length + 2 := by
  rw [getDataPath_eq]; simp

theorem self_mem_prefixesOf (p : FsPath) : p ∈ prefixesOf p := by
  simp only [prefixesOf, List.mem_map, List.mem_range]
  exact ⟨p.length, by omega, List.take_length p⟩

theorem length_le_of_mem_prefixesOf {p q : FsPath} (h : q ∈ prefixesOf p) :
    q.length ≤ p.length := by
  simp only [prefixesOf, List.mem_map, List.mem_range] at h
  obtain ⟨i, _, rfl⟩ := h
  simp [List.length_take]

/-! ### Helper lemmas about identifier validation -/

theorem validateMessageID_none {id : List Nat} (h : validateMessageID id = none) :
    id ≠ [] ∧ hasDotDot id = false ∧ id.any isPathSep = false ∧
      id.length ≤ 255 := by
  simp only [validateMessageID] at h
  split_ifs at h with h1 h2 h3 h4
  exact ⟨h1, by simpa using h2, by simpa using h3, by omega⟩

theorem not_sep_of_valid {id : List Nat} (h : id.any isPathSep = false) :
    ∀ x ∈ id, x ≠ 47 ∧ x ≠ 92 := by
  intro x hx
  have := List.any_eq_false.mp h x hx
  simp only [Bool.not_eq_true, isPathSep, Bool.or_eq_false_iff,
    beq_eq_false_iff_ne, ne_eq] at this
  exact this

/-! ### Helper lemmas about the OS primitives and store/read -/

theorem mkdirAll_ok {fs : FS} {p : FsPath}
    (h : ∀ q ∈ prefixesOf p, fs.file q = none) :
    mkdirAll fs p = .ok ⟨fs.files, prefixesOf p ++ fs.dirs⟩ := by
  have hb : (prefixesOf p).all (fun q => (fs.file q).isNone) = true := by
    rw [List.all_eq_true]; intro q hq; simp [h q hq]
  simp [mkdirAll, hb]

theorem osCreate_ok {fs : FS} {p : FsPath}
    (h1 : fs.isDir p = false) (h2 : fs.isDir p.dropLast = true) :
    osCreate fs p = .ok (fs.setFile p []) := by
  simp [osCreate, h1, h2]

theorem notMem_prefixesOf_dropLast_getDataPath (base : FsPath) (id : List Nat) :
    ∀ q ∈ prefixesOf (getDataPath base id).dropLast, q ≠ getDataPath base id := by
  intro q hq heq
  have h1 := length_le_of_mem_prefixesOf hq
  have h2 := getDataPath_length base id
  have h3 := List.length_dropLast (getDataPath base id)
  rw [heq] at h1; omega

theorem isDir_after_mkdir_dataPath {fs : FS} {base : FsPath} {id : List Nat}
    (hnd : fs.isDir (getDataPath base id) = false) :
    (FS.mk fs.files
      (prefixesOf (getDataPath base id).dropLast ++ fs.dirs)).isDir
        (getDataPath base id) = false := by
  rw [FS.isDir_false_iff] at hnd ⊢
  intro hmem
  rcases List.mem_append.mp hmem with hpre | hdirs
  · exact notMem_prefixesOf_dropLast_getDataPath base id _ hpre rfl
  · exact hnd hdirs

theorem isDir_parent_after_mkdir (fs : FS) (d : FsPath) :
    (FS.mk fs.files (prefixesOf d ++ fs.dirs)).isDir d = true := by
  rw [FS.isDir_true_iff]
  exact List.mem_append.mpr (Or.inl (self_mem_prefixesOf d))

/-- The state a successful `StoreData` leaves behind: the shard directory
chain exists and the blob file holds exactly the source bytes. -/
def storedState (st : BState) (id data : List Nat) : BState :=
  let dp := getDataPath st.basePath id
  let fs1 : FS := ⟨st.fs.files, prefixesOf dp.dropLast ++ st.fs.dirs⟩
  { st with fs := (fs1.setFile dp []).setFile dp data }

/-- The successful path through `StoreData`: with a valid identifier, an open
backend, a live context, no file blocking the shard directory chain and no
directory sitting at the blob path, the store succeeds, reports the full
source length, and leaves the blob file holding exactly the source bytes. -/
theorem storeData_ok {ctx : Ctx} {st : BState} {id data : List Nat}
    (hval : validateMessageID id = none) (hopen : st.closed = false)
    (hc : ctx.done = false)
    (hpf : ∀ q ∈ prefixesOf (getDataPath st.basePath id).dropLast,
      st.fs.file q = none)
    (hnd : st.fs.isDir (getDataPath st.basePath id) = false) :
    storeData ctx st id data = .ok (data.length, storedState st id data) := by
  have hmk := mkdirAll_ok hpf
  have hcr := osCreate_ok (isDir_after_mkdir_dataPath hnd)
    (isDir_parent_after_mkdir st.fs _)
  simp [storeData, storedState, hval, hopen, hc, hmk, hcr]

/-- The successful path through `GetDataReader`: a blob file at the derived
path is opened and its bytes delivered. -/
theorem getDataReader_of_file {ctx : Ctx} {st : BState} {id b : List Nat}
    (hval : validateMessageID id = none) (hopen : st.closed = false)
    (hc : ctx.done = false)
    (hfile : st.fs.file (getDataPath st.basePath id) = some b) :
    getDataReader ctx st id = .ok b := by
  simp [getDataReader, hval, hopen, hc, osOpen, hfile]

/-! ### C1 -/

/-- C1: Round-trip.  For every valid identifier and byte sequence, storing
the bytes and then reading the identifier back yields exactly those bytes,
and the size `StoreData` reports equals their length.  The state hypotheses
say the backend is open, neither context is already cancelled, no regular
file blocks the shard directory chain, and no directory occupies the blob
path — i.e. the store's own I/O steps can succeed. -/
theorem storeData_roundtrip (ctx ctx2 : Ctx) (st : BState) (id data : List Nat)
    (hval : validateMessageID id = none) (hopen : st.closed = false)
    (hc : ctx.done = false) (hc2 : ctx2.done = false)
    (hpf : ∀ q ∈ prefixesOf (getDataPath st.basePath id).dropLast,
      st.fs.file q = none)
    (hnd : st.fs.isDir (getDataPath st.basePath id) = false) :
    ∃ st1, storeData ctx st id data = .ok (data.length, st1) ∧
      getDataReader ctx2 st1 id = .ok data := by
  refine ⟨_, storeData_ok hval hopen hc hpf hnd, ?_⟩
  exact getDataReader_of_file hval hopen hc2 (FS.file_setFile_same ..)

/-- Witness for C1 at a concrete input: base directory `"b"`, identifier
`"ab"`, contents `[1, 2, 3]`. -/
theorem storeData_roundtrip_witness :
    ∃ st1, storeData ⟨false⟩ ⟨[[98]], false, ⟨[], [[], [[98]]]⟩⟩
        [97, 98] [1, 2, 3] = .ok (3, st1) ∧
      getDataReader ⟨false⟩ st1 [97, 98] = .ok [1, 2, 3] :=
  storeData_roundtrip ⟨false⟩ ⟨false⟩ ⟨[[98]], false, ⟨[], [[], [[98]]]⟩⟩
    [97, 98] [1, 2, 3] (by decide) rfl rfl rfl (by decide) (by decide)

/-! ### C8 -/

/-- C8: Overwrite semantics.  Under the same success-path hypotheses as the
round-trip, storing `b1` and then `b2` under one identifier leaves exactly
`b2` retrievable: the second store reports `b2`'s length and a subsequent
read delivers `b2` and nothing of `b1`. -/
theorem storeData_overwrite (ctx1 ctx2 ctx3 : Ctx) (st : BState)
    (id b1 b2 : List Nat)
    (hval : validateMessageID id = none) (hopen : st.closed = false)
    (hc1 : ctx1.done = false) (hc2 : ctx2.done = false)
    (hc3 : ctx3.done = false)
    (hpf : ∀ q ∈ prefixesOf (getDataPath st.basePath id).dropLast,
      st.fs.file q = none)
    (hnd : st.fs.isDir (getDataPath st.basePath id) = false) :
    ∃ st1 st2, storeData ctx1 st id b1 = .ok (b1.length, st1) ∧
      storeData ctx2 st1 id b2 = .ok (b2.length, st2) ∧
      getDataReader ctx3 st2 id = .ok b2 := by
  have hne := notMem_prefixesOf_dropLast_getDataPath st.basePath id
  refine ⟨_, _, storeData_ok hval hopen hc1 hpf hnd,
    storeData_ok hval hopen hc2 ?_ ?_, ?_⟩
  · intro q hq
    simp only [storedState] at hq ⊢
    rw [FS.file_setFile_ne _ _ (hne q hq), FS.file_setFile_ne _ _ (hne q hq)]
    exact hpf q hq
  · simp only [storedState]
    rw [FS.isDir_setFile, FS.isDir_setFile]
    exact isDir_after_mkdir_dataPath hnd
  · exact getDataReader_of_file hval hopen hc3 (FS.file_setFile_same ..)

/-- Witness for C8 at a concrete input: storing `[1, 2, 3]` then `[9]` under
`"ab"` leaves exactly `[9]` readable. -/
theorem storeData_overwrite_witness :
    ∃ st1 st2, storeData ⟨false⟩ ⟨[[98]], false, ⟨[], [[], [[98]]]⟩⟩
        [97, 98] [1, 2, 3] = .ok (3, st1) ∧
      storeData ⟨false⟩ st1 [97, 98] [9] = .ok (1, st2) ∧
      getDataReader ⟨false⟩ st2 [97, 98] = .ok [9] :=
  storeData_overwrite ⟨false⟩ ⟨false⟩ ⟨false⟩
    ⟨[[98]], false, ⟨[], [[], [[98]]]⟩⟩ [97, 98] [1, 2, 3] [9]
    (by decide) rfl rfl rfl rfl (by decide) (by decide)

/-! ### Helper lemmas about directory cleanup -/

theorem readDir_ok {fs : FS} {dir : FsPath} {entries : List FsPath}
    (h : readDir fs dir = .ok entries) :
    fs.file dir = none ∧ fs.isDir dir = true ∧ entries = childrenOf fs dir := by
  simp only [readDir] at h
  by_cases h1 : (fs.file dir).isSome
  · rw [if_pos h1] at h
    exact Except.noConfusion h
  · rw [if_neg h1] at h
    by_cases h2 : fs.isDir dir
    · rw [if_pos h2] at h
      injection h with h
      exact ⟨Option.not_isSome_iff_eq_none.mp h1, h2, h.symm⟩
    · rw [if_neg h2] at h
      exact Except.noConfusion h

/-- The invariants of the cleanup walk, by induction on the step counter:
the files are untouched, no directory is ever created, and every directory
it removes is distinct from the base path and has no entries in the final
state. -/
theorem cleanupAux_props (base : FsPath) (n : Nat) (fs : FS) (dir : FsPath) :
    (cleanupAux base n fs dir).files = fs.files ∧
    (∀ q, q ∈ (cleanupAux base n fs dir).dirs → q ∈ fs.dirs) ∧
    (∀ q, q ∈ fs.dirs → q ∉ (cleanupAux base n fs dir).dirs →
      q ≠ base ∧ childrenOf (cleanupAux base n fs dir) q = []) := by
  induction n generalizing fs dir with
  | zero => exact ⟨rfl, fun q hq => hq, fun q hq hnq => absurd hq hnq⟩
  | succ n ih =>
    match dir with
    | [] => exact ⟨rfl, fun q hq => hq, fun q hq hnq => absurd hq hnq⟩
    | c :: cs =>
      by_cases hb : c :: cs = base
      · rw [show cleanupAux base (n + 1) fs (c :: cs) = fs by
          simp [cleanupAux, hb]]
        exact ⟨rfl, fun q hq => hq, fun q hq hnq => absurd hq hnq⟩
      · cases hrd : readDir fs (c :: cs) with
        | error e =>
          rw [show cleanupAux base (n + 1) fs (c :: cs) = fs by
            simp [cleanupAux, hb, hrd]]
          exact ⟨rfl, fun q hq => hq, fun q hq hnq => absurd hq hnq⟩
        | ok entries =>
          by_cases he : entries = []
          · obtain ⟨hf, hd, hent⟩ := readDir_ok hrd
            have hch : childrenOf fs (c :: cs) = [] := by rw [← hent, he]
            have hrm : osRemove fs (c :: cs) = .ok (fs.eraseDir (c :: cs)) := by
              simp [osRemove, hf, hd, hch]
            have hstep : cleanupAux base (n + 1) fs (c :: cs) =
                cleanupAux base n (fs.eraseDir (c :: cs)) (c :: cs).dropLast := by
              simp [cleanupAux, hb, hrd, he, hrm]
            obtain ⟨ihf, ihsub, ihrem⟩ :=
              ih (fs.eraseDir (c :: cs)) (c :: cs).dropLast
            rw [hstep]
            have hfiles : (cleanupAux base n (fs.eraseDir (c :: cs))
                (c :: cs).dropLast).files = fs.files := by rw [ihf]; rfl
            refine ⟨hfiles, ?_, ?_⟩
            · intro q hq
              exact (FS.mem_eraseDir.mp (ihsub q hq)).1
            · intro q hq hnq
              by_cases hq2 : q ∈ (fs.eraseDir (c :: cs)).dirs
              · exact ihrem q hq2 hnq
              · have hqd : q = c :: cs := by
                  by_contra hne
                  exact hq2 (FS.mem_eraseDir.mpr ⟨hq, hne⟩)
                subst hqd
                refine ⟨hb, ?_⟩
                have hempty := List.filter_eq_nil_iff.mp hch
                rw [childrenOf, List.filter_eq_nil_iff]
                intro x hx
                rcases List.mem_append.mp hx with hxf | hxd
                · refine hempty x (List.mem_append.mpr (Or.inl ?_))
                  rwa [hfiles] at hxf
                · refine hempty x (List.mem_append.mpr (Or.inr ?_))
                  exact (FS.mem_eraseDir.mp (ihsub x hxd)).1
          · rw [show cleanupAux base (n + 1) fs (c :: cs) = fs by
              simp [cleanupAux, hb, hrd, he]]
            exact ⟨rfl, fun q hq => hq, fun q hq hnq => absurd hq hnq⟩

theorem cleanupEmptyDirs_files (base : FsPath) (fs : FS) (dir : FsPath) :
    (cleanupEmptyDirs base fs dir).files = fs.files :=
  (cleanupAux_props base (dir.length + 1) fs dir).1

theorem cleanupEmptyDirs_dirs_sub (base : FsPath) (fs : FS) (dir : FsPath) :
    ∀ q, q ∈ (cleanupEmptyDirs base fs dir).dirs → q ∈ fs.dirs :=
  (cleanupAux_props base (dir.length + 1) fs dir).2.1

theorem cleanupEmptyDirs_removed (base : FsPath) (fs : FS) (dir : FsPath) :
    ∀ q, q ∈ fs.dirs → q ∉ (cleanupEmptyDirs base fs dir).dirs →
      q ≠ base ∧ childrenOf (cleanupEmptyDirs base fs dir) q = [] :=
  (cleanupAux_props base (dir.length + 1) fs dir).2.2

/-- The backend state after a delete's removal phase produced filesystem
`fs2`: cleanup has walked up from the blob's parent directory. -/
def cleanedState (st : BState) (fs2 : FS) (id : List Nat) : BState :=
  let dp := getDataPath st.basePath id
  { st with fs := cleanupEmptyDirs st.basePath fs2 dp.dropLast }

/-- The path through `DeleteData` when nothing is at the blob path: the
removal reports not-exist, which is treated as success, and cleanup runs. -/
theorem deleteData_absent {ctx : Ctx} {st : BState} {id : List Nat}
    (hval : validateMessageID id = none) (hopen : st.closed = false)
    (hc : ctx.done = false)
    (habs : st.fs.file (getDataPath st.basePath id) = none)
    (hnd : st.fs.isDir (getDataPath st.basePath id) = false) :
    deleteData ctx st id = .ok (cleanedState st st.fs id) := by
  have hrm : osRemove st.fs (getDataPath st.basePath id) = .error .notExist := by
    simp [osRemove, habs, hnd]
  simp [deleteData, cleanedState, hval, hopen, hc, hrm]

/-- The path through `DeleteData` when the blob file exists: the file is
removed and cleanup runs. -/
theorem deleteData_present {ctx : Ctx} {st : BState} {id b : List Nat}
    (hval : validateMessageID id = none) (hopen : st.closed = false)
    (hc : ctx.done = false)
    (hfile : st.fs.file (getDataPath st.basePath id) = some b) :
    deleteData ctx st id =
      .ok (cleanedState st (st.fs.eraseFile (getDataPath st.basePath id)) id) := by
  have hrm : osRemove st.fs (getDataPath st.basePath id) =
      .ok (st.fs.eraseFile (getDataPath st.basePath id)) := by
    simp [osRemove, hfile]
  simp [deleteData, cleanedState, hval, hopen, hc, hrm]

theorem file_after_cleanup_eraseFile (base : FsPath) (fs : FS)
    (p d : FsPath) : (cleanupEmptyDirs base (fs.eraseFile p) d).file p = none := by
  unfold FS.file
  rw [cleanupEmptyDirs_files]
  exact FS.file_eraseFile_same fs p

theorem isDir_cleanup_eraseFile_false {base : FsPath} {fs : FS}
    {p d q : FsPath} (h : fs.isDir q = false) :
    (cleanupEmptyDirs base (fs.eraseFile p) d).isDir q = false := by
  rw [FS.isDir_false_iff] at h ⊢
  intro hmem
  exact h (cleanupEmptyDirs_dirs_sub base (fs.eraseFile p) d q hmem)

/-- Completeness of the first cleanup step: a starting directory that
exists, holds no entries, is not the base path and is not the root is
actually removed by the walk. -/
theorem cleanupEmptyDirs_removes_start {base : FsPath} {fs : FS}
    {dir : FsPath} (hne : dir ≠ []) (hnb : dir ≠ base)
    (hnofile : fs.file dir = none) (hdir : dir ∈ fs.dirs)
    (hempty : childrenOf fs dir = []) :
    dir ∉ (cleanupEmptyDirs base fs dir).dirs := by
  obtain ⟨c, cs, rfl⟩ : ∃ c cs, dir = c :: cs := by
    cases dir with
    | nil => exact absurd rfl hne
    | cons c cs => exact ⟨c, cs, rfl⟩
  have hrd : readDir fs (c :: cs) = .ok (childrenOf fs (c :: cs)) := by
    simp [readDir, hnofile, FS.isDir, hdir]
  have hrm : osRemove fs (c :: cs) = .ok (fs.eraseDir (c :: cs)) := by
    simp [osRemove, hnofile, FS.isDir, hdir, hempty]
  have hstep : cleanupEmptyDirs base fs (c :: cs) =
      cleanupAux base (cs.length + 1) (fs.eraseDir (c :: cs))
        (c :: cs).dropLast := by
    simp [cleanupEmptyDirs, cleanupAux, hnb, hrd, hempty, hrm]
  rw [hstep]
  intro hmem
  have hsub := (cleanupAux_props base (cs.length + 1) (fs.eraseDir (c :: cs))
    (c :: cs).dropLast).2.1 _ hmem
  rw [FS.mem_eraseDir] at hsub
  exact hsub.2 rfl

/-- Erasing the only entry of a directory leaves it entryless (the entry
is a file, so it cannot also be a directory entry). -/
theorem childrenOf_eraseFile_only {fs : FS} {dp sd : FsPath}
    (hnd : dp ∉ fs.dirs) (honly : childrenOf fs sd = [dp]) :
    childrenOf (fs.eraseFile dp) sd = [] := by
  rw [childrenOf, List.filter_eq_nil_iff]
  intro x hx hpred
  simp only [FS.eraseFile] at hx
  have hxin : x ∈ fs.files.map Prod.fst ++ fs.dirs ∧ x ≠ dp := by
    rcases List.mem_append.mp hx with hxf | hxd
    · obtain ⟨e, he, rfl⟩ := List.mem_map.mp hxf
      have hef := List.mem_filter.mp he
      refine ⟨List.mem_append.mpr (Or.inl (List.mem_map.mpr ⟨e, hef.1, rfl⟩)), ?_⟩
      simpa using hef.2
    · exact ⟨List.mem_append.mpr (Or.inr hxd), fun heq => hnd (heq ▸ hxd)⟩
  have hmem : x ∈ childrenOf fs sd := List.mem_filter.mpr ⟨hxin.1, hpred⟩
  rw [honly] at hmem
  simp only [List.mem_singleton] at hmem
  exact hxin.2 hmem

/-- Directory reclamation at the `DeleteData` level: deleting a stored blob
that is the only entry of its shard directory removes the shard directory
as well, while the base directory survives. -/
theorem deleteData_reclaims {ctx : Ctx} {st : BState} {id b : List Nat}
    (hval : validateMessageID id = none) (hopen : st.closed = false)
    (hc : ctx.done = false)
    (hfile : st.fs.file (getDataPath st.basePath id) = some b)
    (hnd : st.fs.isDir (getDataPath st.basePath id) = false)
    (hsdf : st.fs.file (getDataPath st.basePath id).dropLast = none)
    (hsdd : (getDataPath st.basePath id).dropLast ∈ st.fs.dirs)
    (honly : childrenOf st.fs (getDataPath st.basePath id).dropLast =
      [getDataPath st.basePath id]) :
    deleteData ctx st id =
        .ok (cleanedState st
          (st.fs.eraseFile (getDataPath st.basePath id)) id) ∧
      (cleanedState st
          (st.fs.eraseFile (getDataPath st.basePath id)) id).fs.isDir
        (getDataPath st.basePath id).dropLast = false ∧
      (st.basePath ∈ st.fs.dirs →
        (cleanedState st
            (st.fs.eraseFile (getDataPath st.basePath id)) id).fs.isDir
          st.basePath = true) := by
  have hlen : (getDataPath st.basePath id).dropLast.length =
      st.basePath.length + 1 := by
    rw [List.length_dropLast, getDataPath_length]
    omega
  have hdpne : (getDataPath st.basePath id).dropLast ≠
      getDataPath st.basePath id := by
    intro heq
    have h2 := getDataPath_length st.basePath id
    rw [heq, h2] at hlen
    omega
  have hnb : (getDataPath st.basePath id).dropLast ≠ st.basePath := by
    intro heq
    rw [heq] at hlen
    omega
  have hne2 : (getDataPath st.basePath id).dropLast ≠ [] := by
    intro heq
    rw [heq] at hlen
    simp only [List.length_nil] at hlen
    omega
  have hf2 : (st.fs.eraseFile (getDataPath st.basePath id)).file
      (getDataPath st.basePath id).dropLast = none := by
    show lookupFile (st.fs.files.filter
        (fun e => decide (e.1 ≠ getDataPath st.basePath id)))
      (getDataPath st.basePath id).dropLast = none
    rw [lookupFile_filter_ne hdpne]
    exact hsdf
  have hch2 : childrenOf (st.fs.eraseFile (getDataPath st.basePath id))
      (getDataPath st.basePath id).dropLast = [] :=
    childrenOf_eraseFile_only ((FS.isDir_false_iff st.fs _).mp hnd) honly
  have hrem := cleanupEmptyDirs_removes_start hne2 hnb hf2 hsdd hch2
  refine ⟨deleteData_present hval hopen hc hfile, ?_, ?_⟩
  · rw [FS.isDir_false_iff]
    exact hrem
  · intro hbase
    rw [FS.isDir_true_iff]
    by_contra hnot
    exact (cleanupEmptyDirs_removed st.basePath
      (st.fs.eraseFile (getDataPath st.basePath id))
      (getDataPath st.basePath id).dropLast st.basePath hbase hnot).1 rfl

/-! ### C4 -/

/-- C4: Idempotent delete.  For a valid identifier on an open backend with a
live context (and no directory sitting at the blob path), deleting when no
blob is stored succeeds, and deleting twice in a row when a blob is stored
succeeds both times — the not-found condition on removal is treated as
success. -/
theorem deleteData_idempotent (ctx ctx2 : Ctx) (st : BState) (id : List Nat)
    (hval : validateMessageID id = none) (hopen : st.closed = false)
    (hc : ctx.done = false) (hc2 : ctx2.done = false)
    (hnd : st.fs.isDir (getDataPath st.basePath id) = false) :
    (st.fs.file (getDataPath st.basePath id) = none →
      ∃ st1, deleteData ctx st id = .ok st1) ∧
    (∀ b, st.fs.file (getDataPath st.basePath id) = some b →
      ∃ st1 st2, deleteData ctx st id = .ok st1 ∧
        deleteData ctx2 st1 id = .ok st2) := by
  constructor
  · intro habs
    exact ⟨_, deleteData_absent hval hopen hc habs hnd⟩
  · intro b hfile
    exact ⟨_, _, deleteData_present hval hopen hc hfile,
      deleteData_absent hval hopen hc2
        (file_after_cleanup_eraseFile ..)
        (isDir_cleanup_eraseFile_false hnd)⟩

/-- Witness for C4: with `"ab"` stored in base `"b"`, two deletes in a row
both succeed. -/
theorem deleteData_idempotent_witness :
    ∃ st1 st2,
      deleteData ⟨false⟩ ⟨[[98]], false,
          ⟨[([[98], [97, 98], [97, 98, 46, 100, 97, 116, 97]], [1, 2, 3])],
            [[], [[98]], [[98], [97, 98]]]⟩⟩ [97, 98] = .ok st1 ∧
        deleteData ⟨false⟩ st1 [97, 98] = .ok st2 :=
  (deleteData_idempotent ⟨false⟩ ⟨false⟩ ⟨[[98]], false,
      ⟨[([[98], [97, 98], [97, 98, 46, 100, 97, 116, 97]], [1, 2, 3])],
        [[], [[98]], [[98], [97, 98]]]⟩⟩ [97, 98]
    (by decide) rfl rfl rfl (by decide)).2 [1, 2, 3] (by decide)

/-! ### C5 -/

/-- C5: Cleanup after delete, both directions.  Safety: the walk never
touches file contents, never creates a directory, never removes the base
directory, and every directory it removes is not the base and is entryless
in the resulting state; because cleanup has no error channel, `DeleteData`
succeeds whenever its own removal step succeeds or reports not-exist, so
cleanup failures (a failed listing or removal stops the walk silently)
never surface to the caller.  Completeness: a starting directory that
exists, is empty, and is neither the base nor the root is actually removed;
and at the operation level, deleting a blob that is the only entry of its
shard directory removes that now-empty ancestor directory while the base
directory survives. -/
theorem cleanupEmptyDirs_spec (base dir : FsPath) (fs : FS) :
    ((cleanupEmptyDirs base fs dir).files = fs.files) ∧
    (∀ q, q ∈ (cleanupEmptyDirs base fs dir).dirs → q ∈ fs.dirs) ∧
    (fs.isDir base = true → (cleanupEmptyDirs base fs dir).isDir base = true) ∧
    (∀ q, q ∈ fs.dirs → q ∉ (cleanupEmptyDirs base fs dir).dirs →
      q ≠ base ∧ childrenOf (cleanupEmptyDirs base fs dir) q = []) ∧
    (dir ≠ [] → dir ≠ base → fs.file dir = none → dir ∈ fs.dirs →
      childrenOf fs dir = [] → dir ∉ (cleanupEmptyDirs base fs dir).dirs) ∧
    (∀ (ctx : Ctx) (st : BState) (id : List Nat),
      validateMessageID id = none → st.closed = false → ctx.done = false →
      st.fs.isDir (getDataPath st.basePath id) = false →
      ∃ st1, deleteData ctx st id = .ok st1) ∧
    (∀ (ctx : Ctx) (st : BState) (id b : List Nat),
      validateMessageID id = none → st.closed = false → ctx.done = false →
      st.fs.file (getDataPath st.basePath id) = some b →
      st.fs.isDir (getDataPath st.basePath id) = false →
      st.fs.file (getDataPath st.basePath id).dropLast = none →
      (getDataPath st.basePath id).dropLast ∈ st.fs.dirs →
      childrenOf st.fs (getDataPath st.basePath id).dropLast =
        [getDataPath st.basePath id] →
      ∃ st1, deleteData ctx st id = .ok st1 ∧
        st1.fs.isDir (getDataPath st.basePath id).dropLast = false ∧
        (st.basePath ∈ st.fs.dirs → st1.fs.isDir st.basePath = true)) := by
  refine ⟨cleanupEmptyDirs_files base fs dir,
    cleanupEmptyDirs_dirs_sub base fs dir, ?_,
    cleanupEmptyDirs_removed base fs dir,
    fun h1 h2 h3 h4 h5 => cleanupEmptyDirs_removes_start h1 h2 h3 h4 h5,
    ?_, ?_⟩
  · intro hbase
    rw [FS.isDir_true_iff] at hbase ⊢
    by_contra hnot
    exact (cleanupEmptyDirs_removed base fs dir base hbase hnot).1 rfl
  · intro ctx st id hval hopen hc hnd
    cases hfile : st.fs.file (getDataPath st.basePath id) with
    | none => exact ⟨_, deleteData_absent hval hopen hc hfile hnd⟩
    | some b => exact ⟨_, deleteData_present hval hopen hc hfile⟩
  · intro ctx st id b hval hopen hc hfile hnd hsdf hsdd honly
    obtain ⟨h1, h2, h3⟩ :=
      deleteData_reclaims hval hopen hc hfile hnd hsdf hsdd honly
    exact ⟨_, h1, h2, h3⟩

/-- Witness for C5: with `"ab"` the only blob of shard `"b"/"ab"`, the
delete succeeds, the shard directory is gone afterwards, and the base
directory `"b"` still exists. -/
theorem cleanupEmptyDirs_spec_witness :
    ∃ st1,
      deleteData ⟨false⟩ ⟨[[98]], false,
          ⟨[([[98], [97, 98], [97, 98, 46, 100, 97, 116, 97]], [1, 2, 3])],
            [[], [[98]], [[98], [97, 98]]]⟩⟩ [97, 98] = .ok st1 ∧
        st1.fs.isDir (getDataPath [[98]] [97, 98]).dropLast = false ∧
        ([[98]] ∈ ([[], [[98]], [[98], [97, 98]]] : List FsPath) →
          st1.fs.isDir [[98]] = true) :=
  (cleanupEmptyDirs_spec [[98]] [] ⟨[], []⟩).2.2.2.2.2.2 ⟨false⟩
    ⟨[[98]], false,
      ⟨[([[98], [97, 98], [97, 98, 46, 100, 97, 116, 97]], [1, 2, 3])],
        [[], [[98]], [[98], [97, 98]]]⟩⟩ [97, 98] [1, 2, 3]
    (by decide) rfl rfl (by decide) (by decide) (by decide) (by decide)
    (by decide)

/-! ### C2 -/

/-- C2: Path derivation.  For identifiers of byte length at least 2 the
derived path is `basePath/<id[0:2]>/<id>.data` (shown both on the byte
string produced by joining with slashes and on the component path);
identifiers shorter than 2 bytes land under the fixed `misc` shard; and two
identifiers sharing their first two bytes derive paths with the same parent
directory. -/
theorem getDataPath_sharding (base : FsPath) (bstr : List Nat) :
    (∀ id : List Nat, 2 ≤ id.length →
      getDataPathStr bstr id =
          bstr ++ 47 :: (id.take 2 ++ 47 :: (id ++ dataSuffix)) ∧
        getDataPath base id = base ++ [id.take 2, id ++ dataSuffix])
    ∧ (∀ id : List Nat, id.length < 2 →
      getDataPathStr bstr id =
          bstr ++ 47 :: (miscBytes ++ 47 :: (id ++ dataSuffix)) ∧
        getDataPath base id = base ++ [miscBytes, id ++ dataSuffix])
    ∧ (∀ id1 id2 : List Nat, 2 ≤ id1.length → 2 ≤ id2.length →
      id1.take 2 = id2.take 2 →
      (getDataPath base id1).dropLast = (getDataPath base id2).dropLast) := by
  refine ⟨?_, ?_, ?_⟩
  · intro id h
    constructor <;> simp [getDataPathStr, getDataPath, h]
  · intro id h
    have h2 : ¬ 2 ≤ id.length := by omega
    constructor <;> simp [getDataPathStr, getDataPath, h2]
  · intro id1 id2 h1 h2 htake
    rw [getDataPath_dropLast, getDataPath_dropLast]
    simp [shardOf, h1, h2, htake]

/-- Witness for C2: `"ab"` and `"abc"` share the shard directory `"b"/"ab"`. -/
theorem getDataPath_sharding_witness :
    (getDataPath [[98]] [97, 98]).dropLast =
      (getDataPath [[98]] [97, 98, 99]).dropLast :=
  (getDataPath_sharding [[98]] [98]).2.2 [97, 98] [97, 98, 99]
    (by decide) (by decide) (by decide)

/-! ### C3 -/

/-- C3: Validation.  For every identifier that is empty, contains two
consecutive dots, contains a slash or backslash byte, or is longer than 255
bytes, all four operations fail with the validation error carrying the
message `validateMessageID` produces; the error is returned before the
closed check, the context poll and any filesystem access, and no state is
produced. -/
theorem invalid_id_rejected (ctx : Ctx) (st : BState) (id data : List Nat)
    (h : id = [] ∨ hasDotDot id = true ∨ id.any isPathSep = true ∨
      255 < id.length) :
    ∃ m, validateMessageID id = some m ∧
      storeData ctx st id data = .error (.validation m) ∧
      getDataReader ctx st id = .error (.validation m) ∧
      getDataWriter ctx st id = .error (.validation m) ∧
      deleteData ctx st id = .error (.validation m) := by
  have hsome : ∃ m, validateMessageID id = some m := by
    by_cases h1 : id = []
    · exact ⟨"messageID cannot be empty", by simp [validateMessageID, h1]⟩
    · by_cases h2 : hasDotDot id = true
      · exact ⟨"messageID cannot contain ..", by simp [validateMessageID, h1, h2]⟩
      · by_cases h3 : id.any isPathSep = true
        · exact ⟨"messageID cannot contain path separators",
            by simp [validateMessageID, h1, h2, h3]⟩
        · have h4 : 255 < id.length := by
            rcases h with h | h | h | h
            · exact absurd h h1
            · exact absurd h h2
            · exact absurd h h3
            · exact h
          exact ⟨"messageID too long (max 255 characters)",
            by simp [validateMessageID, h1, h2, h3, h4]⟩
  obtain ⟨m, hm⟩ := hsome
  exact ⟨m, hm, by simp [storeData, hm], by simp [getDataReader, hm],
    by simp [getDataWriter, hm], by simp [deleteData, hm]⟩

/-- Witness for C3: the identifier `".."` is rejected by all four
operations. -/
theorem invalid_id_rejected_witness :
    ∃ m, validateMessageID [46, 46] = some m ∧
      storeData ⟨false⟩ ⟨[[98]], false, ⟨[], [[]]⟩⟩ [46, 46] [] =
        .error (.validation m) ∧
      getDataReader ⟨false⟩ ⟨[[98]], false, ⟨[], [[]]⟩⟩ [46, 46] =
        .error (.validation m) ∧
      getDataWriter ⟨false⟩ ⟨[[98]], false, ⟨[], [[]]⟩⟩ [46, 46] =
        .error (.validation m) ∧
      deleteData ⟨false⟩ ⟨[[98]], false, ⟨[], [[]]⟩⟩ [46, 46] =
        .error (.validation m) :=
  invalid_id_rejected ⟨false⟩ ⟨[[98]], false, ⟨[], [[]]⟩⟩ [46, 46] []
    (Or.inr (Or.inl (by decide)))

/-! ### C6 -/

/-- C6: Closed-backend contract.  `Close` always succeeds, closing an
already-closed backend succeeds and leaves the same state, and on the closed
backend every operation with a valid identifier fails with the
closed-backend error (returning an error, it produces no new filesystem
state). -/
theorem close_rejects_all (ctx : Ctx) (st : BState) (id data : List Nat)
    (hval : validateMessageID id = none) :
    closeBackend st = .ok { st with closed := true } ∧
    closeBackend { st with closed := true } = .ok { st with closed := true } ∧
    storeData ctx { st with closed := true } id data = .error .closedBackend ∧
    getDataReader ctx { st with closed := true } id = .error .closedBackend ∧
    getDataWriter ctx { st with closed := true } id = .error .closedBackend ∧
    deleteData ctx { st with closed := true } id = .error .closedBackend := by
  refine ⟨rfl, rfl, ?_, ?_, ?_, ?_⟩ <;>
    simp [storeData, getDataReader, getDataWriter, deleteData, hval]

/-- Witness for C6 on a concrete open backend and the identifier `"ab"`. -/
theorem close_rejects_all_witness :
    closeBackend ⟨[[98]], false, ⟨[], [[]]⟩⟩ =
        .ok ⟨[[98]], true, ⟨[], [[]]⟩⟩ ∧
      closeBackend ⟨[[98]], true, ⟨[], [[]]⟩⟩ =
        .ok ⟨[[98]], true, ⟨[], [[]]⟩⟩ ∧
      storeData ⟨false⟩ ⟨[[98]], true, ⟨[], [[]]⟩⟩ [97, 98] [] =
        .error .closedBackend ∧
      getDataReader ⟨false⟩ ⟨[[98]], true, ⟨[], [[]]⟩⟩ [97, 98] =
        .error .closedBackend ∧
      getDataWriter ⟨false⟩ ⟨[[98]], true, ⟨[], [[]]⟩⟩ [97, 98] =
        .error .closedBackend ∧
      deleteData ⟨false⟩ ⟨[[98]], true, ⟨[], [[]]⟩⟩ [97, 98] =
        .error .closedBackend :=
  close_rejects_all ⟨false⟩ ⟨[[98]], false, ⟨[], [[]]⟩⟩ [97, 98] []
    (by decide)

/-! ### C7 -/

/-- C7 counterexample: on a closed backend whose caller context is already
cancelled, an operation with a valid identifier returns the closed-backend
error, not the cancellation error — the code takes the lock and consults the
closed flag before it polls the context, so the claim that a triggered
signal yields a cancellation error (checked immediately after validation)
fails as stated. -/
theorem cancel_check_counterexample :
    storeData ⟨true⟩ ⟨[[98]], true, ⟨[], [[]]⟩⟩ [97, 98] [] =
        .error .closedBackend ∧
      storeData ⟨true⟩ ⟨[[98]], true, ⟨[], [[]]⟩⟩ [97, 98] [] ≠
        .error .cancelled := by decide

/-- C7 (amended): every operation polls the cancellation signal once, after
identifier validation and the closed-flag check and before any I/O; when the
identifier is valid, the backend open and the signal already triggered, each
operation returns the cancellation error and, returning an error, produces
no new filesystem state. -/
theorem cancel_checked_when_open (ctx : Ctx) (st : BState) (id data : List Nat)
    (hval : validateMessageID id = none) (hopen : st.closed = false)
    (hdone : ctx.done = true) :
    storeData ctx st id data = .error .cancelled ∧
    getDataReader ctx st id = .error .cancelled ∧
    getDataWriter ctx st id = .error .cancelled ∧
    deleteData ctx st id = .error .cancelled := by
  refine ⟨?_, ?_, ?_, ?_⟩ <;>
    simp [storeData, getDataReader, getDataWriter, deleteData,
      hval, hopen, hdone]

/-- Witness for the amended C7 on a concrete open backend. -/
theorem cancel_checked_when_open_witness :
    storeData ⟨true⟩ ⟨[[98]], false, ⟨[], [[]]⟩⟩ [97, 98] [] =
        .error .cancelled ∧
      getDataReader ⟨true⟩ ⟨[[98]], false, ⟨[], [[]]⟩⟩ [97, 98] =
        .error .cancelled ∧
      getDataWriter ⟨true⟩ ⟨[[98]], false, ⟨[], [[]]⟩⟩ [97, 98] =
        .error .cancelled ∧
      deleteData ⟨true⟩ ⟨[[98]], false, ⟨[], [[]]⟩⟩ [97, 98] =
        .error .cancelled :=
  cancel_checked_when_open ⟨true⟩ ⟨[[98]], false, ⟨[], [[]]⟩⟩ [97, 98] []
    (by decide) rfl rfl

/-! ### C9 -/

/-- C9: Not-found distinction.  When no file is stored at the derived path,
`GetDataReader` returns the not-found error kind; an open failure that is
not a not-exist (a directory occupying the path, in this model) is returned
as the wrapped I/O error; and the two kinds are distinct, so a caller can
branch on them. -/
theorem getDataReader_notFound_kind (ctx : Ctx) (st : BState) (id : List Nat)
    (hval : validateMessageID id = none) (hopen : st.closed = false)
    (hc : ctx.done = false)
    (habs : st.fs.file (getDataPath st.basePath id) = none) :
    (st.fs.isDir (getDataPath st.basePath id) = false →
      getDataReader ctx st id = .error (.notFound id)) ∧
    (st.fs.isDir (getDataPath st.basePath id) = true →
      getDataReader ctx st id = .error (.ioError "failed to open data file")) ∧
    (∀ i m, BErr.notFound i ≠ BErr.ioError m) := by
  refine ⟨?_, ?_, ?_⟩
  · intro hnd
    simp [getDataReader, hval, hopen, hc, osOpen, habs, hnd]
  · intro hd
    simp [getDataReader, hval, hopen, hc, osOpen, habs, hd]
  · intro i m h
    exact BErr.noConfusion h

/-- Witness for C9: reading the never-stored `"ab"` from a fresh backend
yields the not-found error. -/
theorem getDataReader_notFound_kind_witness :
    getDataReader ⟨false⟩ ⟨[[98]], false, ⟨[], [[], [[98]]]⟩⟩ [97, 98] =
      .error (.notFound [97, 98]) :=
  (getDataReader_notFound_kind ⟨false⟩ ⟨[[98]], false, ⟨[], [[], [[98]]]⟩⟩
    [97, 98] (by decide) rfl rfl (by decide)).1 (by decide)

/-! ### Helper lemmas about byte-level path splitting and resolution -/

theorem splitOnSlash_ne_nil (s : List Nat) : splitOnSlash s ≠ [] := by
  cases s with
  | nil => simp [splitOnSlash]
  | cons c cs =>
    simp only [splitOnSlash]
    by_cases h : c = 47
    · simp [h]
    · rw [if_neg h]
      cases splitOnSlash cs <;> simp

theorem splitOnSlash_append (a b : List Nat) :
    splitOnSlash (a ++ 47 :: b) = splitOnSlash a ++ splitOnSlash b := by
  induction a with
  | nil => simp [splitOnSlash]
  | cons c cs ih =>
    by_cases h : c = 47
    · simp [splitOnSlash, h, ih]
    · simp only [List.cons_append, splitOnSlash, if_neg h]
      have ih2 : splitOnSlash (cs.append (47 :: b)) =
          splitOnSlash cs ++ splitOnSlash b := ih
      rw [ih2]
      cases hcs : splitOnSlash cs with
      | nil => exact absurd hcs (splitOnSlash_ne_nil cs)
      | cons d ds => simp

theorem splitOnSlash_no_slash {s : List Nat} (h : ∀ x ∈ s, x ≠ 47) :
    splitOnSlash s = [s] := by
  induction s with
  | nil => rfl
  | cons c cs ih =>
    have hc : c ≠ 47 := h c (List.mem_cons_self ..)
    have ih2 := ih (fun x hx => h x (List.mem_cons_of_mem _ hx))
    simp [splitOnSlash, hc, ih2]

theorem resolveComps_append (a b : List (List Nat)) :
    resolveComps (a ++ b) = b.foldl resolveStep (resolveComps a) := by
  simp [resolveComps, List.foldl_append]

theorem resolveStep_plain {acc : List (List Nat)} {c : List Nat}
    (h1 : c ≠ []) (h2 : c ≠ [46]) (h3 : c ≠ [46, 46]) :
    resolveStep acc c = acc ++ [c] := by
  simp [resolveStep, h1, h2, h3]

/-- A validated identifier's shard component is slash-free and is not a
resolution-special component (empty, dot, or dot-dot). -/
theorem shardOf_facts {id : List Nat} (hval : validateMessageID id = none) :
    (∀ x ∈ shardOf id, x ≠ 47) ∧ shardOf id ≠ [] ∧ shardOf id ≠ [46] ∧
      shardOf id ≠ [46, 46] := by
  obtain ⟨hne, hdd, hsep, _⟩ := validateMessageID_none hval
  by_cases h : 2 ≤ id.length
  · obtain ⟨a, b, t, rfl⟩ : ∃ a b t, id = a :: b :: t := by
      match id, h with
      | a :: b :: t, _ => exact ⟨a, b, t, rfl⟩
    have hsh : shardOf (a :: b :: t) = [a, b] := by
      simp [shardOf, h]
    rw [hsh]
    refine ⟨?_, by simp, by simp, ?_⟩
    · intro x hx
      simp only [List.mem_cons, List.not_mem_nil, or_false] at hx
      rcases hx with rfl | rfl
      · exact (not_sep_of_valid hsep x (by simp)).1
      · exact (not_sep_of_valid hsep x (by simp)).1
    · intro heq
      obtain ⟨ha, hb⟩ : a = 46 ∧ b = 46 := by simpa using heq
      subst ha; subst hb
      simp [hasDotDot] at hdd
  · have hm : shardOf id = miscBytes := by simp [shardOf, h]
    rw [hm]
    exact ⟨by decide, by decide, by decide, by decide⟩

/-- A validated identifier's blob filename component (`<id>.data`) is
slash-free and is not a resolution-special component. -/
theorem fname_facts {id : List Nat} (hval : validateMessageID id = none) :
    (∀ x ∈ id ++ dataSuffix, x ≠ 47) ∧ id ++ dataSuffix ≠ [] ∧
      id ++ dataSuffix ≠ [46] ∧ id ++ dataSuffix ≠ [46, 46] := by
  obtain ⟨hne, _, hsep, _⟩ := validateMessageID_none hval
  have hlen : 1 ≤ id.length := by
    cases id with
    | nil => exact absurd rfl hne
    | cons c cs => simp
  refine ⟨?_, ?_, ?_, ?_⟩
  · intro x hx
    rcases List.mem_append.mp hx with hx | hx
    · exact (not_sep_of_valid hsep x hx).1
    · have hsuf : ∀ x ∈ dataSuffix, x ≠ 47 := by decide
      exact hsuf x hx
  · intro heq
    rw [List.append_eq_nil] at heq
    exact hne heq.1
  · intro heq
    have := congrArg List.length heq
    simp [dataSuffix] at this
  · intro heq
    have := congrArg List.length heq
    simp [dataSuffix] at this

/-! ### C10 -/

/-- C10: Traversal safety.  For every identifier that passes validation, the
byte string `getDataPath` builds resolves to the base path's resolution
extended by exactly the shard component and the blob filename: because a
validated identifier contains no separator byte and no dot-dot, neither
added component is empty, `"."`, or `".."`, so resolution keeps both and the
derived path lies strictly inside the base directory subtree. -/
theorem validated_path_inside (bstr id : List Nat)
    (hval : validateMessageID id = none) :
    resolveComps (splitOnSlash (getDataPathStr bstr id)) =
        resolveComps (splitOnSlash bstr) ++ [shardOf id, id ++ dataSuffix] ∧
      ∃ rest, rest ≠ [] ∧
        resolveComps (splitOnSlash (getDataPathStr bstr id)) =
          resolveComps (splitOnSlash bstr) ++ rest := by
  obtain ⟨hs47, hs1, hs2, hs3⟩ := shardOf_facts hval
  obtain ⟨hf47, hf1, hf2, hf3⟩ := fname_facts hval
  have hstr : getDataPathStr bstr id =
      bstr ++ 47 :: (shardOf id ++ 47 :: (id ++ dataSuffix)) := by
    by_cases h : 2 ≤ id.length <;> simp [getDataPathStr, shardOf, h]
  have hmain : resolveComps (splitOnSlash (getDataPathStr bstr id)) =
      resolveComps (splitOnSlash bstr) ++ [shardOf id, id ++ dataSuffix] := by
    rw [hstr, splitOnSlash_append, splitOnSlash_append,
      splitOnSlash_no_slash hs47, splitOnSlash_no_slash hf47,
      show splitOnSlash bstr ++ ([shardOf id] ++ [id ++ dataSuffix]) =
        splitOnSlash bstr ++ [shardOf id, id ++ dataSuffix] by simp,
      resolveComps_append]
    simp [resolveStep_plain hs1 hs2 hs3, resolveStep_plain hf1 hf2 hf3]
  exact ⟨hmain, [shardOf id, id ++ dataSuffix], by simp, hmain⟩

/-- Witness for C10: for base `"b"` and identifier `"ab"` the derived path
resolves to the base resolution extended by `"ab"` and `"ab.data"`. -/
theorem validated_path_inside_witness :
    resolveComps (splitOnSlash (getDataPathStr [98] [97, 98])) =
        resolveComps (splitOnSlash [98]) ++
          [shardOf [97, 98], [97, 98] ++ dataSuffix] ∧
      ∃ rest, rest ≠ [] ∧
        resolveComps (splitOnSlash (getDataPathStr [98] [97, 98])) =
          resolveComps (splitOnSlash [98]) ++ rest :=
  validated_path_inside [98] [97, 98] (by decide)

end FsStore
